import Mathlib

/-!
Verification of the InsightChat context-assembly pipeline.

This file is a shallow embedding, in Lean 4, of the pure decision logic of
the `flask-chat-app` chat pipeline:

* `chunk_text` and `summarize_large_document` from `chat/document_processor.py`
  (document chunking and map-reduce summarization);
* `fetch_repo_chunks`'s context construction from `chat/utils.py`, including a
  model of `textwrap.shorten` and `html.escape`;
* the context-combination logic of the `chat` POST handler in `chat/routes.py`;
* the calendar tool's intent/endpoint logic and event formatting from
  `chat/tools/calendar_tool.py`, the weather tool's failure handling from
  `chat/tools/weather_tool.py`, `BaseTool.format_for_llm` from
  `chat/tools/base_tool.py`, and `ToolRouter.route_query` from
  `chat/tool_router.py`.

Python strings are embedded as `List Char` (Python `len` counts characters,
as does `List.length`).  Python slice / `str.rfind` negative-index semantics
are implemented explicitly.  External calls (`requests`, the Ollama call in
`prompt_model`, `datetime` formatting, `html.unescape`) are modelled as
oracle parameters: a pure function argument stands for the outcome of the
call, and theorems quantify over it.  Loops whose termination is in question
(`chunk_text`'s `while`) are embedded with explicit fuel, returning `none`
when the fuel runs out, so that non-termination of the source loop is
expressible.
-/

namespace InsightChat

/-- ASCII whitespace, matching Python `str.isspace` / `str.strip()` /
`str.split()` behaviour on ASCII text (the embedding does not model the
additional Unicode whitespace code points). -/
def isSpaceChar (c : Char) : Bool :=
  c = ' ' || c = '\t' || c = '\n' || c = '\r' || c = '\x0b' || c = '\x0c'

/-- Python `str.strip()`: remove leading and trailing whitespace. -/
def pyStrip (s : List Char) : List Char :=
  ((s.dropWhile isSpaceChar).reverse.dropWhile isSpaceChar).reverse

/-- Python `str.lstrip()`: remove leading whitespace. -/
def pyLstrip (s : List Char) : List Char :=
  s.dropWhile isSpaceChar

/-- Normalize a Python slice index against a length: negative indices count
from the end and are clamped at 0; positive ones are clamped at `len`. -/
def sliceIdx (len : Nat) (i : Int) : Nat :=
  if i < 0 then ((len : Int) + i).toNat else min i.toNat len

/-- Python `s[a:b]` on a string, with full negative-index semantics. -/
def pySlice (s : List Char) (a b : Int) : List Char :=
  (s.take (sliceIdx s.length b)).drop (sliceIdx s.length a)

/-- Whether `sub` occurs in `s` starting exactly at position `i`. -/
def matchAt (s sub : List Char) (i : Nat) : Bool :=
  (s.drop i).take sub.length == sub

/-- The greatest index `i` with `a' ≤ i`, `i + |sub| ≤ b'` (indices
normalized like a slice) at which `sub` occurs in `s`. -/
def rfindIdx (s sub : List Char) (a b : Int) : Option Nat :=
  ((List.range (sliceIdx s.length b + 1)).filter
    (fun i => decide (sliceIdx s.length a ≤ i)
      && decide (i + sub.length ≤ sliceIdx s.length b)
      && matchAt s sub i)).getLast?

/-- Python `s.rfind(sub, a, b)`: the index of the last occurrence of `sub`
inside the slice `s[a:b]`, or `-1` if there is none. -/
def pyRfind (s sub : List Char) (a b : Int) : Int :=
  match rfindIdx s sub a b with
  | some i => (i : Int)
  | none => -1

/-- One candidate window of `chunk_text`'s loop: the `start` and (adjusted)
`end` offsets of the iteration and the stripped slice `text[start:end]`.
The source appends the stripped slice to its result only when non-empty;
the window record keeps it either way so that offsets can be reasoned
about. -/
structure Window where
  start : Int
  stop : Int
  chunk : List Char
  deriving DecidableEq, Repr

/-- `end = min(start + chunk_size, len(text))` (line 28). -/
def rawEnd (text : List Char) (chunk_size start : Int) : Int :=
  min (start + chunk_size) (text.length : Int)

/-- `search_start = max(end - 1000, start)` (line 33). -/
def boundarySearchStart (text : List Char) (chunk_size start : Int) : Int :=
  max (rawEnd text chunk_size start - 1000) start

/-- `last_sentence` (lines 34-39): the maximum of the four `rfind` results
over the boundary search window. -/
def lastSentence (text : List Char) (chunk_size start : Int) : Int :=
  max (max (pyRfind text ['.'] (boundarySearchStart text chunk_size start)
             (rawEnd text chunk_size start))
           (pyRfind text ['!'] (boundarySearchStart text chunk_size start)
             (rawEnd text chunk_size start)))
      (max (pyRfind text ['?'] (boundarySearchStart text chunk_size start)
             (rawEnd text chunk_size start))
           (pyRfind text ['\n', '\n'] (boundarySearchStart text chunk_size start)
             (rawEnd text chunk_size start)))

/-- The adjusted `end` of one loop iteration (lines 28-41): when
`end < len(text)` and a sentence boundary was found after `search_start`,
the chunk ends right after the boundary; otherwise at the raw offset. -/
def chunkEnd (text : List Char) (chunk_size start : Int) : Int :=
  if rawEnd text chunk_size start < (text.length : Int) then
    if lastSentence text chunk_size start > boundarySearchStart text chunk_size start
    then lastSentence text chunk_size start + 1
    else rawEnd text chunk_size start
  else rawEnd text chunk_size start

/-- One iteration of the `while start < len(text)` loop body of `chunk_text`
(`document_processor.py`, lines 27-47): compute the adjusted `end`, strip
the slice `text[start:end]`, and compute the next `start`
(`end - overlap if end < len(text) else end`).  Returns the window and the
next value of `start`. -/
def chunkStep (text : List Char) (chunk_size overlap : Int) (start : Int) :
    Window × Int :=
  (⟨start, chunkEnd text chunk_size start,
    pyStrip (pySlice text start (chunkEnd text chunk_size start))⟩,
   if chunkEnd text chunk_size start < (text.length : Int) then
     chunkEnd text chunk_size start - overlap
   else chunkEnd text chunk_size start)

/-- The `while` loop of `chunk_text`, with explicit fuel.  `none` means the
fuel ran out, i.e. the source loop has not terminated within `fuel`
iterations. -/
def chunkLoop (text : List Char) (chunk_size overlap : Int) :
    Nat → Int → Option (List Window)
  | 0, _ => none
  | fuel + 1, start =>
    if start < (text.length : Int) then
      let s := chunkStep text chunk_size overlap start
      match chunkLoop text chunk_size overlap fuel s.2 with
      | none => none
      | some ws => some (s.1 :: ws)
    else
      some []

/-- All candidate windows produced by `chunk_text`'s loop on `text`, starting
from offset 0, with fuel `text.length + 1` (enough whenever the loop advances
`start` by at least one per iteration). -/
def chunkWindows (text : List Char) (chunk_size overlap : Int) :
    Option (List Window) :=
  chunkLoop text chunk_size overlap (text.length + 1) 0

/-- The chunks `chunk_text` emits from a window list: the non-empty stripped
slices, in loop order (the source's `if chunk: chunks.append(chunk)`). -/
def emittedChunks (ws : List Window) : List (List Char) :=
  (ws.map Window.chunk).filter (fun c => !c.isEmpty)

/-- The windows whose chunks `chunk_text` emits (those that strip to a
non-empty string), keeping their offsets. -/
def emittedWindows (ws : List Window) : List Window :=
  ws.filter (fun w => !w.chunk.isEmpty)

/-- A document on which a whitespace-only window falls between two emitted
chunks: `"a."`, twenty spaces, `"bcdefghijkl"`. -/
def gapText : List Char :=
  ("a." ++ String.mk (List.replicate 20 ' ') ++ "bcdefghijkl").data

/-- `chunk_text(text, chunk_size, overlap)` from `document_processor.py`:
returns `[text]` when `len(text) <= chunk_size`, otherwise the non-empty
stripped windows of the loop.  `none` models non-termination of the source
loop (fuel exhausted). -/
def chunk_text (text : List Char) (chunk_size overlap : Int) :
    Option (List (List Char)) :=
  if (text.length : Int) ≤ chunk_size then some [text]
  else (chunkWindows text chunk_size overlap).map emittedChunks

/-- The source loop (started, as in `chunk_text`, at offset 0) runs forever
on this input: every fuel bound is exhausted. -/
def chunkTextDiverges (text : List Char) (chunk_size overlap : Int) : Prop :=
  ∀ fuel, chunkLoop text chunk_size overlap fuel 0 = none

/-! ### Python string helpers used by the summarizer's score parsing -/

/-- The decimal digits of a natural number, as characters. -/
def natChars (n : Nat) : List Char := (toString n).data

/-- The decimal representation of an integer, as characters (Python `str`
of an `int`). -/
def intChars (i : Int) : List Char := (toString i).data

/-- Leftmost index at which `sub` occurs in `s` (Python `str.find` /
the `in` operator), `none` if absent. -/
def findFirst (s sub : List Char) : Option Nat :=
  ((List.range (s.length + 1)).filter (fun i => matchAt s sub i)).head?

/-- Python `sub in s` (substring containment). -/
def containsSub (s sub : List Char) : Bool :=
  (findFirst s sub).isSome

/-- Worker for `pySplit`, with fuel (each step removes at least one
character when `sub` is non-empty, so `s.length + 1` fuel suffices). -/
def pySplitAux (sub : List Char) : Nat → List Char → List (List Char)
  | 0, s => [s]
  | fuel + 1, s =>
    match findFirst s sub with
    | none => [s]
    | some i => s.take i :: pySplitAux sub fuel (s.drop (i + sub.length))

/-- Python `s.split(sub)` for a non-empty separator `sub`: the parts of `s`
between consecutive non-overlapping occurrences of `sub`, left to right. -/
def pySplit (s sub : List Char) : List (List Char) :=
  pySplitAux sub (s.length + 1) s

/-- Value of a non-empty all-digit character list, else `none`. -/
def digitsVal (l : List Char) : Option Nat :=
  if l ≠ [] ∧ l.all Char.isDigit then
    some (l.foldl (fun a c => a * 10 + (c.toNat - '0'.toNat)) 0)
  else none

/-- Python `int(s)` for a decimal literal with optional sign and surrounding
whitespace, `none` when `int` would raise `ValueError` (digit-group
underscores, accepted by Python, are not modelled; no input in this
development contains one). -/
def pyInt (s : List Char) : Option Int :=
  match pyStrip s with
  | '+' :: r => (digitsVal r).map Int.ofNat
  | '-' :: r => (digitsVal r).map (fun n => -(n : Int))
  | r => (digitsVal r).map Int.ofNat

/-! ### `summarize_large_document` (`document_processor.py`, lines 51-184) -/

/-- Outcome of one `prompt_model` call, abstracted: the prompt is mapped to
either the returned response content (`ok`) or a raised exception's message
(`error`).  (`prompt_model`'s returned history is unused by the
summarizer.) -/
def Oracle : Type := List Char → Except (List Char) (List Char)

/-- The score-extraction logic of `summarize_large_document` (lines
120-127): `0` unless the response contains `"Relevance Score:"`, in which
case the text after the first marker, up to the next marker, is cut at the
first newline, cut at the first `/`, stripped, and parsed with `int`,
falling back to `0` on a parse error. -/
def scoreOf (resp : List Char) : Int :=
  let marker := "Relevance Score:".data
  if containsSub resp marker then
    let score_line := (pySplit resp marker).getD 1 []
    let score_line := (pySplit score_line ['\n']).headD []
    match pyInt (pyStrip ((pySplit score_line ['/']).headD [])) with
    | some v => v
    | none => 0
  else 0

/-- The overview prompt of lines 69-82. -/
def overviewPrompt (path preview question : List Char) : List Char :=
  "Please provide a brief overview of this document and identify its main sections/topics:\n\nDocument: ".data
    ++ path ++ "\nPreview: ".data ++ preview
    ++ "\n\nQuestion from user: ".data ++ question
    ++ "\n\nProvide:\n1. Document type and purpose\n2. Main sections/topics covered  \n3. Which sections are most relevant to the user's question\n4. Recommended approach for analyzing this document given the question\n\nKeep response under 200 words.".data

/-- The per-chunk relevance prompt of lines 102-111 (`i` is the zero-based
chunk index, `total` the chunk count). -/
def relevancePrompt (question : List Char) (i total : Nat) (chunk : List Char) :
    List Char :=
  "Rate the relevance of this document section to the user's question (1-10 scale) and provide a brief summary if relevant (score 6+):\n\nQuestion: ".data
    ++ question ++ "\n\nDocument section ".data ++ natChars (i + 1) ++ "/".data
    ++ natChars total ++ ":\n".data ++ chunk
    ++ "\n\nResponse format:\nRelevance Score: X/10\nSummary: (only if score 6+, max 100 words)".data

/-- One entry of `relevant_summaries` (lines 132-137). -/
structure RelSummary where
  chunk_index : Nat
  relevance_score : Int
  summary : List Char
  content_preview : List Char
  deriving DecidableEq, Repr

/-- `content_preview` of line 136: the first 500 characters with an ellipsis
when the chunk is longer than 500 characters. -/
def contentPreview (chunk : List Char) : List Char :=
  if chunk.length > 500 then chunk.take 500 ++ "...".data else chunk

/-- The chunk-analysis `for` loop of lines 98-141: `i` is the index of the
first chunk of the remaining list, `total` the length of the full chunk
list.  The loop breaks as soon as `total > 10` and `i > 0`; an oracle error
for a chunk skips that chunk (`except ... continue`); otherwise the parsed
score is recorded and, when it is at least 6, a summary entry is
collected.  Returns (`chunk_relevance_scores`, `relevant_summaries`). -/
def analyzeChunks (oracle : Oracle) (question : List Char) (total : Nat) :
    Nat → List (List Char) → List (Nat × Int) × List RelSummary
  | _, [] => ([], [])
  | i, chunk :: rest =>
    if total > 10 ∧ i > 0 then ([], [])
    else
      match oracle (relevancePrompt question i total chunk) with
      | .error _ => analyzeChunks oracle question total (i + 1) rest
      | .ok resp =>
        let score := scoreOf resp
        let r := analyzeChunks oracle question total (i + 1) rest
        ((i, score) :: r.1,
         if score ≥ 6 then
           { chunk_index := i, relevance_score := score, summary := resp,
             content_preview := contentPreview chunk } :: r.2
         else r.2)

/-- Join a list of strings with a separator (Python `sep.join`). -/
def joinSep (sep : List Char) : List (List Char) → List Char
  | [] => []
  | [x] => x
  | x :: y :: xs => x ++ sep ++ joinSep sep (y :: xs)

/-- `sections_analysis` of line 146, over an already-selected summary
list. -/
def sectionsAnalysis (sums : List RelSummary) : List Char :=
  joinSep ['\n'] (sums.map (fun s =>
    "Section ".data ++ natChars (s.chunk_index + 1) ++ " (Relevance: ".data
      ++ intChars s.relevance_score ++ "/10):\n".data ++ s.summary))

/-- The synthesis prompt of lines 148-159. -/
def finalPrompt (path question overview sections : List Char) : List Char :=
  "Based on the document analysis below, provide a comprehensive answer to the user's question:\n\nDocument: ".data
    ++ path ++ "\nQuestion: ".data ++ question ++ "\n\nDocument Overview:\n".data
    ++ overview ++ "\n\nRelevant Sections Analysis:\n".data ++ sections
    ++ "\n\nPlease provide a thorough answer based on this analysis. If you need to see specific sections in detail, mention that.".data

/-- The no-relevant-sections fallback response of line 167. -/
def fallbackResponse (path question overview : List Char) : List Char :=
  "I analyzed the document '".data ++ path
    ++ "' but couldn't find sections directly relevant to your question: '".data
    ++ question ++ "'. The document overview is:\n\n".data ++ overview
    ++ "\n\nPlease try asking a more specific question about particular aspects of the document.".data

/-- The dictionary `summarize_large_document` returns; the failure branch of
lines 179-184 populates only `success`, `error` and `document_size`, so the
other keys are `Option` fields that are `none` there. -/
structure SummaryResult where
  success : Bool
  response : Option (List Char) := none
  error : Option (List Char) := none
  document_overview : Option (List Char) := none
  relevant_chunks : Option (List RelSummary) := none
  total_chunks : Option Nat := none
  chunks_analyzed : Option Nat := none
  document_size : Nat
  deriving DecidableEq, Repr

/-- The local `chunks` of `summarize_large_document` (line 92):
`chunk_text(document_content, chunk_size=40000, overlap=3000)`.  The `[]`
default of the fuelled embedding is dead code: at these parameters the loop
terminates (`chunkWindows_isSome`, since `3000 + 1000 < 40000`). -/
def summarizerChunks (content : List Char) : List (List Char) :=
  (chunk_text content 40000 3000).getD []

/-- The local `relevant_summaries` of `summarize_large_document` after the
scoring loop (lines 94-141). -/
def relevantSummariesOf (oracle : Oracle) (question content : List Char) :
    List RelSummary :=
  (analyzeChunks oracle question (summarizerChunks content).length 0
    (summarizerChunks content)).2

/-- `summarize_large_document(document_path, document_content, question)`
(lines 51-184), with `prompt_model` abstracted into `oracle`. -/
def summarize_large_document (path content question : List Char)
    (oracle : Oracle) : SummaryResult :=
  match oracle (overviewPrompt path (content.take 10000) question) with
  | .error e =>
    { success := false,
      error := some ("Error processing large document: ".data ++ e),
      document_size := content.length }
  | .ok overview_response =>
    if (relevantSummariesOf oracle question content).isEmpty then
      { success := true,
        response := some (fallbackResponse path question overview_response),
        document_overview := some overview_response,
        relevant_chunks := some (relevantSummariesOf oracle question content),
        total_chunks := some (summarizerChunks content).length,
        chunks_analyzed := some (min (summarizerChunks content).length 10),
        document_size := content.length }
    else
      match oracle (finalPrompt path question overview_response
          (sectionsAnalysis ((relevantSummariesOf oracle question content).take 5))) with
      | .error e =>
        { success := false,
          error := some ("Error processing large document: ".data ++ e),
          document_size := content.length }
      | .ok final_response =>
        { success := true,
          response := some final_response,
          document_overview := some overview_response,
          relevant_chunks := some (relevantSummariesOf oracle question content),
          total_chunks := some (summarizerChunks content).length,
          chunks_analyzed := some (min (summarizerChunks content).length 10),
          document_size := content.length }

/-! ### `textwrap.shorten` (as called by `fetch_repo_chunks` in `utils.py`)

`shorten(text, width, placeholder=p)` builds a `TextWrapper` with
`max_lines=1` and default settings and calls `fill(' '.join(text.strip().split()))`.
The embedding below implements CPython's `_wrap_chunks` specialized to this
configuration (`max_lines=1`, `drop_whitespace=True`, empty indents,
`break_long_words=True`); the chunking step models `_split` as alternating
words and single spaces (its additional split at hyphens inside words is not
modelled; no string this development evaluates is hyphenated). -/

/-- Worker for `pyWords`: accumulate the current word (reversed). -/
def pyWordsGo : List Char → List Char → List (List Char)
  | acc, [] => if acc.isEmpty then [] else [acc.reverse]
  | acc, c :: rest =>
    if isSpaceChar c then
      if acc.isEmpty then pyWordsGo [] rest else acc.reverse :: pyWordsGo [] rest
    else pyWordsGo (c :: acc) rest

/-- Python `s.split()` with no argument: maximal runs of non-whitespace. -/
def pyWords (s : List Char) : List (List Char) := pyWordsGo [] s

/-- The chunk list `TextWrapper._split` produces on whitespace-collapsed
text: words interleaved with single-space chunks. -/
def interchunks : List (List Char) → List (List Char)
  | [] => []
  | [w] => [w]
  | w :: y :: r => w :: [' '] :: interchunks (y :: r)

/-- Total length of a chunk list. -/
def sumLen (l : List (List Char)) : Nat := (l.map List.length).sum

/-- The greedy inner loop of `_wrap_chunks`: take chunks while the running
length stays within `width`; returns (line so far, remaining chunks). -/
def greedyTake (width : Nat) (cur : Nat) : List (List Char) →
    List (List Char) × List (List Char)
  | [] => ([], [])
  | c :: rest =>
    if cur + c.length ≤ width then
      let r := greedyTake width (cur + c.length) rest
      (c :: r.1, r.2)
    else ([], c :: rest)

/-- `TextWrapper._handle_long_word` (with `break_long_words=True` and
`break_on_hyphens=True`), applied when the next chunk alone is longer than
`width`: cut it at the remaining space (or after its last hyphen in that
space when the hyphen follows a non-hyphen), put the head on the line and
the tail back on the chunk list. -/
def handleLongWord (width : Nat) (line : List (List Char))
    (rest : List (List Char)) : List (List Char) × List (List Char) :=
  match rest with
  | [] => (line, [])
  | c :: rs =>
    if c.length > width then
      let space_left := if width < 1 then 1 else width - sumLen line
      let e :=
        if c.length > space_left then
          let hyphen := pyRfind c ['-'] 0 (space_left : Int)
          if hyphen > 0 ∧ (c.take hyphen.toNat).any (fun x => x ≠ '-') then
            (hyphen + 1).toNat
          else space_left
        else space_left
      (line ++ [c.take e], c.drop e :: rs)
    else (line, c :: rs)

/-- Drop a trailing whitespace chunk from the built line
(`drop_whitespace` handling at the end of the line loop). -/
def dropTrailingWs (line : List (List Char)) : List (List Char) :=
  match line.getLast? with
  | some l => if (pyStrip l).isEmpty then line.dropLast else line
  | none => line

/-- The placeholder loop of `_wrap_chunks` when the text does not fit: drop
trailing chunks (the argument is the line reversed) until the placeholder
fits after a non-whitespace chunk; if the line empties, the result is the
left-stripped placeholder alone. -/
def trimToPh (width : Nat) (ph : List Char) : List (List Char) → List Char
  | [] => pyLstrip ph
  | c :: rs =>
    if ¬(pyStrip c).isEmpty ∧ sumLen (c :: rs) + ph.length ≤ width then
      joinSep [] ((c :: rs).reverse) ++ ph
    else trimToPh width ph rs

/-- `TextWrapper._wrap_chunks` specialized to `max_lines = 1` (single
output line), composed with `fill`'s join. -/
def wrapOne (width : Nat) (ph : List Char) (chunks : List (List Char)) :
    List Char :=
  let g := greedyTake width 0 chunks
  let h := handleLongWord width g.1 g.2
  let line := dropTrailingWs h.1
  let rest := h.2
  if line.isEmpty then []
  else if (rest.isEmpty ∨ (rest.length = 1 ∧ (pyStrip (rest.headD [])).isEmpty))
      ∧ sumLen line ≤ width then
    joinSep [] line
  else trimToPh width ph line.reverse

/-- `textwrap.shorten(text, width, placeholder=ph)`. -/
def pyShorten (text : List Char) (width : Nat) (ph : List Char) : List Char :=
  wrapOne width ph (interchunks (pyWords (pyStrip text)))

/-! ### `fetch_repo_chunks` (`utils.py`, lines 30-116) -/

/-- `html.escape(s)` (with `quote=True`, the default): the five sequential
replacements are equivalent to this character map because no replacement
string contains a character replaced by a later pass. -/
def escapeChar (c : Char) : List Char :=
  if c = '&' then "&amp;".data
  else if c = '<' then "&lt;".data
  else if c = '>' then "&gt;".data
  else if c = '"' then "&quot;".data
  else if c = '\'' then "&#x27;".data
  else [c]

/-- `html.escape` over a string. -/
def htmlEscape (s : List Char) : List Char := (s.map escapeChar).flatten

/-- One element of the RAG `/query` response's `results` list, with the
fields `fetch_repo_chunks` reads (`content` defaulting to `""`, the
metadata's `source` possibly absent, `start_index` and `score` defaulting
to 0). -/
structure RagItem where
  content : List Char := []
  source? : Option (List Char) := none
  start_index : Int := 0
  score : Int := 0
  deriving DecidableEq, Repr

/-- The pure context construction of `fetch_repo_chunks` (lines 60-103),
as a function of the parsed `results` list (the request plumbing and all
error paths return `(None, [])` upstream and are not reached here on a
successful response).  Returns `(final_context?, chunk_data)`. -/
def fetch_repo_chunks (results : List RagItem) :
    Option (List Char) × List RagItem :=
  if results.isEmpty then (none, [])
  else if ((results.filter (fun r => !r.content.isEmpty)).map (fun r =>
      "---\nSource: ".data ++ r.source?.getD "unknown".data ++ ['\n']
        ++ pyShorten (htmlEscape r.content) 800 " …".data ++ ['\n'])).isEmpty then
    (none, [])
  else
    (some (pyShorten
      ("Use the following retrieved document excerpts to answer the user query (do not cite unless asked):\n\n".data
        ++ joinSep ['\n'] ((results.filter (fun r => !r.content.isEmpty)).map (fun r =>
          "---\nSource: ".data ++ r.source?.getD "unknown".data ++ ['\n']
            ++ pyShorten (htmlEscape r.content) 800 " …".data ++ ['\n'])))
      4000 "\n[truncated]".data),
     results.filter (fun r => !r.content.isEmpty))

/-! ### Context combination in the `chat` POST handler
(`routes.py`, lines 156-298) -/

/-- The content of the temporary system message the handler prepends for
this turn, `none` when no context is available.  `loaded_context` and
`tool_context` use Python truthiness (`[]` for absent or empty);
`recent_docs` models a non-empty `recent_analyzed_docs`;
`tools_handled` is `tool_results and any(r['success'])`. -/
def combinedSystemContext (use_repo_docs tools_handled : Bool)
    (loaded_context : List Char) (recent_docs : Bool)
    (rag_results : List RagItem) (tool_context : List Char) :
    Option (List Char) :=
  if use_repo_docs && !tools_handled then
    let context_text : Option (List Char) :=
      if !loaded_context.isEmpty then some loaded_context
      else if recent_docs then none
      else (fetch_repo_chunks rag_results).1
    match context_text with
    | some ct =>
      some (if !tool_context.isEmpty then tool_context ++ "\n\n".data ++ ct else ct)
    | none => if !tool_context.isEmpty then some tool_context else none
  else
    if !loaded_context.isEmpty then
      some (if !tool_context.isEmpty then
        tool_context ++ "\n\n".data ++ loaded_context else loaded_context)
    else if !tool_context.isEmpty then some tool_context
    else none

/-! ### Calendar tool: endpoint resolution
(`calendar_tool.py`, lines 103-172) -/

/-- ASCII `str.lower()` (the embedding does not model non-ASCII case
mapping). -/
def asciiLower (s : List Char) : List Char :=
  s.map (fun c => if 'A' ≤ c ∧ c ≤ 'Z' then Char.ofNat (c.toNat + 32) else c)

/-- Consume a literal at the head of the input. -/
def stripLit (lit s : List Char) : Option (List Char) :=
  if matchAt s lit 0 then some (s.drop lit.length) else none

/-- Consume one or more whitespace characters (`\s+`); maximal munch is
equivalent to the regex here because every following pattern element starts
with a non-whitespace character. -/
def stripWs1 (s : List Char) : Option (List Char) :=
  match s with
  | c :: r => if isSpaceChar c then some (r.dropWhile isSpaceChar) else none
  | [] => none

/-- Consume one or more digits (`\d+`), returning the captured digits;
maximal munch is equivalent because the next pattern element is `\s+`. -/
def stripDigits1 (s : List Char) : Option (List Char × List Char) :=
  let d := s.takeWhile Char.isDigit
  if d.isEmpty then none else some (d, s.dropWhile Char.isDigit)

/-- `re.search`: the leftmost position at which an anchored parser
succeeds. -/
def searchPos {α : Type} (p : List Char → Option α) (s : List Char) :
    Option α :=
  ((List.range (s.length + 1)).filterMap (fun i => p (s.drop i))).head?

/-- The pattern `when\s+is\s+(the|my)\s+next` anchored at the head of the
input (the two alternatives begin with different letters, so ordered
matching needs no backtracking). -/
def nextEventAt (s : List Char) : Option Unit := do
  let s ← stripLit "when".data s
  let s ← stripWs1 s
  let s ← stripLit "is".data s
  let s ← stripWs1 s
  let s ← (stripLit "the".data s).orElse (fun _ => stripLit "my".data s)
  let s ← stripWs1 s
  let _ ← stripLit "next".data s
  pure ()

/-- `re.search(r'when\s+is\s+(the|my)\s+next', s)` succeeds. -/
def matchNextEvent (s : List Char) : Bool := (searchPos nextEventAt s).isSome

/-- The pattern `next\s+(\d+)\s+<unit>s?` anchored at the head, returning
the captured digit group (the optional trailing `s` constrains nothing). -/
def nextNumUnitAt (unit : List Char) (s : List Char) : Option (List Char) := do
  let s ← stripLit "next".data s
  let s ← stripWs1 s
  let (d, s) ← stripDigits1 s
  let s ← stripWs1 s
  let _ ← stripLit unit s
  pure d

/-- The spelled-out numbers of `word_to_num` (lines 119-122), in the order
the regex alternation lists them; none is a prefix of another, so ordered
first-match equals the regex's choice. -/
def numberWords : List (List Char × Nat) :=
  [("one".data, 1), ("two".data, 2), ("three".data, 3), ("four".data, 4),
   ("five".data, 5), ("six".data, 6), ("seven".data, 7), ("eight".data, 8),
   ("nine".data, 9), ("ten".data, 10)]

/-- Try the number words in order at the head of the input. -/
def firstNumberWord : List (List Char × Nat) → List Char →
    Option (List Char × List Char)
  | [], _ => none
  | (w, _) :: ws, s =>
    match stripLit w s with
    | some r => some (w, r)
    | none => firstNumberWord ws s

/-- The pattern `next\s+(one|...|ten)\s+<unit>s?` anchored at the head,
returning the captured word. -/
def nextWordUnitAt (unit : List Char) (s : List Char) : Option (List Char) := do
  let s ← stripLit "next".data s
  let s ← stripWs1 s
  let (w, s) ← firstNumberWord numberWords s
  let s ← stripWs1 s
  let _ ← stripLit unit s
  pure w

/-- `word_to_num.get(w, 1)`. -/
def wordToNum (w : List Char) : Nat := (numberWords.lookup w).getD 1

/-- `CalendarTool._determine_endpoint` (lines 103-172): the nine-rule
first-match-wins chain over the lower-cased message.  (Every branch returns
an empty `params` dict, so only the endpoint string is returned.) -/
def determineEndpoint (user_message : List Char) : List Char :=
  let message_lower := asciiLower user_message
  if matchNextEvent message_lower then "/calendar/events/next/30".data
  else
    match searchPos (nextNumUnitAt "week".data) message_lower,
          searchPos (nextWordUnitAt "week".data) message_lower with
    | some ds, _ =>
      let weeks := (digitsVal ds).getD 0
      "/calendar/events/next/".data ++ natChars (weeks * 7)
    | none, some w =>
      "/calendar/events/next/".data ++ natChars (wordToNum w * 7)
    | none, none =>
      match searchPos (nextNumUnitAt "day".data) message_lower,
            searchPos (nextWordUnitAt "day".data) message_lower with
      | some ds, _ => "/calendar/events/next/".data ++ ds
      | none, some w => "/calendar/events/next/".data ++ natChars (wordToNum w)
      | none, none =>
        if containsSub message_lower "next month".data then
          "/calendar/events/next/30".data
        else if containsSub message_lower "this week".data then
          "/calendar/events/next/7".data
        else if containsSub message_lower "next week".data
            && !containsSub message_lower "weeks".data then
          "/calendar/events/next/14".data
        else if containsSub message_lower "tomorrow".data then
          "/calendar/events/tomorrow".data
        else if containsSub message_lower "today".data
            || containsSub message_lower "tonight".data then
          "/calendar/events/today".data
        else "/calendar/events/next/7".data

/-! ### Calendar tool: event formatting and execution
(`calendar_tool.py`, lines 174-491) -/

/-- A calendar event as `_format_events_response` reads it: each field is
fetched with `event.get(key, default)`, so absent keys are `none`. -/
structure CalEvent where
  summary? : Option (List Char) := none
  start? : Option (List Char) := none
  stop? : Option (List Char) := none
  location? : Option (List Char) := none
  description? : Option (List Char) := none
  deriving DecidableEq, Repr

/-- The parsed body of a calendar API response (`data.get('events', [])`,
and `data.get('status', 'unknown')` for the health endpoint). -/
structure CalendarData where
  events : List CalEvent := []
  status? : Option (List Char) := none
  deriving DecidableEq, Repr

/-- `re.sub(r'<[^>]+>', '', s)`: remove HTML tags.  The fuel argument is
`s.length + 1`; every step consumes at least one character. -/
def removeTagsAux : Nat → List Char → List Char
  | 0, s => s
  | fuel + 1, s =>
    match s with
    | [] => []
    | '<' :: r =>
      let inner := r.takeWhile (fun c => c ≠ '>')
      let rest := r.dropWhile (fun c => c ≠ '>')
      if inner.isEmpty then '<' :: removeTagsAux fuel r
      else
        match rest with
        | '>' :: r2 => removeTagsAux fuel r2
        | _ => '<' :: removeTagsAux fuel r
    | c :: r => c :: removeTagsAux fuel r

/-- `re.sub(r'<[^>]+>', '', s)`. -/
def removeTags (s : List Char) : List Char := removeTagsAux (s.length + 1) s

/-- `re.sub(r'\s+', ' ', s)`: collapse whitespace runs to single spaces. -/
def collapseWsAux : Nat → List Char → List Char
  | 0, s => s
  | fuel + 1, s =>
    match s with
    | [] => []
    | c :: r =>
      if isSpaceChar c then ' ' :: collapseWsAux fuel (r.dropWhile isSpaceChar)
      else c :: collapseWsAux fuel r

/-- `re.sub(r'\s+', ' ', s)`. -/
def collapseWs (s : List Char) : List Char := collapseWsAux (s.length + 1) s

/-- The date/time lines of one event (lines 409-447).  `dt start stop`
models the `datetime.strptime`/`strftime` block: `some (dateRepr, timeRepr)`
is a successful parse (the `'%A, %b %-d'` date string and the formatted
time-range string), `none` the raised exception, handled by the
string-splitting fallback. -/
def eventDateTimeLines
    (dt : List Char → List Char → Option (List Char × List Char))
    (show_date : Bool) (start stop : List Char) : List Char × List Char :=
  if start.isEmpty then ([], [])
  else
    match dt start stop with
    | some (drep, trep) =>
      (if show_date then "📅 ".data ++ drep else [], "🕒 ".data ++ trep)
    | none =>
      let start_parts := pySplit start [' ']
      if start_parts.length = 2 then
        ("📅 ".data ++ start_parts.headD [],
         "🕒 ".data ++ start_parts.getD 1 [])
      else ([], "🕒 ".data ++ start)

/-- The description lines of one event (lines 456-471).  `unesc` models
`html.unescape`; `zoom` models `re.search(r'(https://[^\s]+zoom[^\s]+)', d)`
on the raw description. -/
def eventDescriptionLines (unesc : List Char → List Char)
    (zoom : List Char → Option (List Char)) (description : List Char) :
    List (List Char) :=
  let desc_clean := pyStrip (collapseWs (unesc (removeTags description)))
  (match zoom description with
   | some u => ["  🔗 Zoom: ".data ++ u]
   | none => [])
  ++ (if !desc_clean.isEmpty ∧ desc_clean.length < 500
        ∧ ¬matchAt desc_clean "Hi there".data 0 then
        let d := if desc_clean.length > 200 then desc_clean.take 200 ++ "...".data
                 else desc_clean
        ["  ℹ️ ".data ++ d]
      else [])

/-- The lines one event contributes to `_format_events_response`
(lines 401-472), including the trailing blank line. -/
def eventLines (unesc : List Char → List Char)
    (zoom : List Char → Option (List Char))
    (dt : List Char → List Char → Option (List Char × List Char))
    (show_date : Bool) (e : CalEvent) : List (List Char) :=
  let summary := e.summary?.getD "Untitled Event".data
  let start := e.start?.getD []
  let stop := e.stop?.getD []
  let location := e.location?.getD []
  let description := e.description?.getD []
  let dtl := eventDateTimeLines dt show_date start stop
  ["**".data ++ summary ++ "**".data]
    ++ (if !dtl.1.isEmpty then ["  ".data ++ dtl.1] else [])
    ++ (if !dtl.2.isEmpty then ["  ".data ++ dtl.2] else [])
    ++ (if !location.isEmpty then ["  📍 ".data ++ location] else [])
    ++ (if !description.isEmpty then eventDescriptionLines unesc zoom description
        else [])
    ++ [[]]

/-- The header of `_format_events_response` (lines 377-396). -/
def eventsHeader (endpoint : List Char) (n : Nat) : List Char :=
  if containsSub endpoint "today".data then
    "You have ".data ++ natChars n ++ " event(s) today:".data
  else if containsSub endpoint "tomorrow".data then
    "You have ".data ++ natChars n ++ " event(s) tomorrow:".data
  else if containsSub endpoint "next/7".data then
    "You have ".data ++ natChars n ++ " event(s) in the next week:".data
  else if containsSub endpoint "next/14".data then
    "You have ".data ++ natChars n ++ " event(s) in the next 2 weeks:".data
  else if containsSub endpoint "next/30".data then
    "You have ".data ++ natChars n ++ " event(s) in the next month:".data
  else if containsSub endpoint "next".data then
    match searchPos (fun t => do
        let t ← stripLit "next/".data t
        let (d, _) ← stripDigits1 t
        pure d) endpoint with
    | some days =>
      "You have ".data ++ natChars n ++ " event(s) in the next ".data ++ days
        ++ " days:".data
    | none => "You have ".data ++ natChars n ++ " upcoming event(s):".data
  else "Found ".data ++ natChars n ++ " event(s):".data

/-- `CalendarTool._format_events_response` (lines 348-474). -/
def formatEventsResponse (unesc : List Char → List Char)
    (zoom : List Char → Option (List Char))
    (dt : List Char → List Char → Option (List Char × List Char))
    (data : CalendarData) (endpoint : List Char) : List Char :=
  let events := data.events
  if events.isEmpty then
    if containsSub endpoint "today".data then
      "You have no events scheduled for today.".data
    else if containsSub endpoint "tomorrow".data then
      "You have no events scheduled for tomorrow.".data
    else if containsSub endpoint "next/7".data then
      "You have no events scheduled for the next week.".data
    else if containsSub endpoint "next".data then
      "You have no upcoming events.".data
    else "No events found.".data
  else
    let show_date := !containsSub endpoint "today".data
      && !containsSub endpoint "tomorrow".data
    let event_lines := [eventsHeader endpoint events.length, []]
      ++ (events.map (eventLines unesc zoom dt show_date)).flatten
    joinSep ['\n'] event_lines

/-- `CalendarTool._format_health_response` (lines 267-270). -/
def formatHealthResponse (data : CalendarData) : List Char :=
  "Calendar API Status: ".data ++ data.status?.getD "unknown".data

/-- Outcome of the blocking HTTP request an `execute` makes: a parsed
successful body, or the exception `requests` raised (`Timeout`,
`ConnectionError`, `HTTPError` with its status code, or any other
exception), with the exception's message. -/
inductive HttpOutcome (α : Type) where
  | ok (data : α)
  | timeout
  | connError (msg : List Char)
  | httpError (status : Nat) (msg : List Char)
  | otherError (msg : List Char)
  deriving Repr

/-- The result dictionary a tool's `execute` returns, with the fields this
development reads (`data` for the weather tool is its
`response`/`timestamp` pair). -/
structure ToolResult where
  success : Bool
  error : Option (List Char) := none
  formatted_response : Option (List Char) := none
  event_count : Option Nat := none
  endpoint : Option (List Char) := none
  dataResponse : List Char := []
  dataTimestamp : List Char := []
  deriving DecidableEq, Repr

/-- `CalendarTool.execute` (lines 174-265) as a function of the query and
the request's outcome.  `Timeout` keeps its own message; `ConnectionError`
and `HTTPError` are both `requests.exceptions.RequestException`s, caught by
the same branch with `str(e)` as `msg`. -/
def calendarExecute (enabled hasUrl : Bool) (timeout : Nat)
    (unesc : List Char → List Char) (zoom : List Char → Option (List Char))
    (dt : List Char → List Char → Option (List Char × List Char))
    (query : List Char) (out : HttpOutcome CalendarData) : ToolResult :=
  if !enabled then
    { success := false, error := some "Calendar tool is disabled".data }
  else if !hasUrl then
    { success := false, error := some "Calendar API URL not configured".data }
  else
    match out with
    | .ok data =>
      let endpoint := determineEndpoint query
      if endpoint = "/calendar/health".data then
        { success := true,
          formatted_response := some (formatHealthResponse data),
          endpoint := some endpoint }
      else
        { success := true,
          formatted_response :=
            some (formatEventsResponse unesc zoom dt data endpoint),
          endpoint := some endpoint,
          event_count := some data.events.length }
    | .timeout =>
      { success := false,
        error := some ("Calendar API request timed out after ".data
          ++ natChars timeout ++ " seconds".data) }
    | .connError m =>
      { success := false,
        error := some ("Failed to fetch calendar data: ".data ++ m) }
    | .httpError _ m =>
      { success := false,
        error := some ("Failed to fetch calendar data: ".data ++ m) }
    | .otherError m =>
      { success := false, error := some ("Unexpected error: ".data ++ m) }

/-! ### Weather tool (`weather_tool.py`, lines 93-222) -/

/-- The parsed body of a PyWeather `/weather/query` response. -/
structure WeatherData where
  success : Bool
  response_text : List Char := []
  timestamp : List Char := []
  message? : Option (List Char) := none
  deriving DecidableEq, Repr

/-- `WeatherTool.execute` (lines 93-191) as a function of the query and the
request outcome. -/
def weatherExecute (available : Bool) (apiUrl : List Char) (timeout : Nat)
    (out : HttpOutcome WeatherData) : ToolResult :=
  if !available then
    { success := false,
      error := some "Weather tool is not available or not configured".data }
  else
    match out with
    | .ok d =>
      if d.success then
        { success := true, error := none,
          dataResponse := d.response_text, dataTimestamp := d.timestamp }
      else
        { success := false,
          error := some (d.message?.getD "Unknown error from weather API".data) }
    | .timeout =>
      { success := false,
        error := some ("Weather API request timed out after ".data
          ++ natChars timeout ++ " seconds".data) }
    | .connError _ =>
      { success := false,
        error := some ("Cannot connect to weather service at ".data ++ apiUrl) }
    | .httpError status _ =>
      { success := false,
        error := some ("Weather API returned error: ".data ++ natChars status) }
    | .otherError m =>
      { success := false, error := some ("Unexpected error: ".data ++ m) }

/-! ### `format_for_llm` and the router
(`base_tool.py`, lines 78-92; `tool_router.py`, lines 120-173) -/

/-- `BaseTool.format_for_llm` (lines 78-92).  `dataStr` models the f-string
interpolation `{data}` (Python's `str` of the result's `data` value) in the
success branch. -/
def baseFormatForLlm (name dataStr : List Char) (r : ToolResult) : List Char :=
  if !r.success then
    "[".data ++ name ++ " tool error: ".data
      ++ r.error.getD "Unknown error".data ++ "]".data
  else
    "[".data ++ name ++ " tool response: ".data ++ dataStr ++ "]".data

/-- `CalendarTool.format_for_llm` (lines 476-491); `self.name` is
`"calendar"`. -/
def calendarFormatForLlm (dataStr : List Char) (r : ToolResult) : List Char :=
  if !r.success then
    "[Calendar tool error: ".data ++ r.error.getD "Unknown error".data
      ++ "]".data
  else
    match r.formatted_response with
    | some f =>
      if !f.isEmpty then "[Calendar Information]\n".data ++ f
      else baseFormatForLlm "calendar".data dataStr r
    | none => baseFormatForLlm "calendar".data dataStr r

/-- `WeatherTool.format_for_llm` (lines 193-222). -/
def weatherFormatForLlm (r : ToolResult) : List Char :=
  if !r.success then
    "\n\n[Weather data unavailable: ".data
      ++ r.error.getD "Unknown error".data ++ "]".data
  else
    "\n\n---\nWEATHER INFORMATION (from PyWeather):\n".data ++ r.dataResponse
      ++ "\n\nTimestamp: ".data ++ r.dataTimestamp
      ++ "\n---\n\nUse the weather information above to answer the user's question about weather conditions.\n".data

/-- What one registered tool does on a query: `execute` either returns a
result dictionary or raises (the router catches the exception). -/
inductive ExecBehavior where
  | returns (r : ToolResult)
  | raises (msg : List Char)
  deriving Repr

/-- A registered tool as `route_query` uses it: its name, its `can_handle`
classifier, its `execute` behaviour per query, and its `format_for_llm`. -/
structure RouterTool where
  name : List Char
  canHandle : List Char → Bool
  behavior : List Char → ExecBehavior
  fmt : ToolResult → List Char

/-- `ToolRouter.route_query` (lines 120-173): filter the registry by
`can_handle`, execute every matching tool in order (an exception becomes a
captured failure result and does not stop the loop), collect each non-empty
`format_for_llm` output, and join the parts with newlines. -/
def routeQuery (tools : List RouterTool) (query : List Char) :
    List ToolResult × List Char :=
  let matching := tools.filter (fun t => t.canHandle query)
  if matching.isEmpty then ([], [])
  else
    let pairs := matching.map (fun t =>
      match t.behavior query with
      | .returns r =>
        let formatted := t.fmt r
        (r, if !formatted.isEmpty then some formatted else none)
      | .raises m => (({ success := false, error := some m } : ToolResult), none))
    (pairs.map Prod.fst, joinSep ['\n'] (pairs.filterMap Prod.snd))

/-- A single registered tool that matches every query, returns the fixed
result `r` from `execute`, and formats with `BaseTool.format_for_llm`:
the minimal registry for observing what the router injects. -/
def soloTool (name dataStr : List Char) (r : ToolResult) : RouterTool where
  name := name
  canHandle := fun _ => true
  behavior := fun _ => ExecBehavior.returns r
  fmt := baseFormatForLlm name dataStr

/-- Invariant of `chunkLoop`'s result, relative to the `start` the loop was
entered with: the head window starts at `start`; every window is in bounds,
at most `chunk_size` wide, with a chunk of at most `chunk_size` characters;
and each window hands the next one a start of exactly its own (adjusted)
end minus `overlap`, strictly beyond its own start — the loop ends exactly
when a window's end reaches the end of the text. -/
def WindowsInv (text : List Char) (cs ov : Int) : Int → List Window → Prop
  | start, [] => (text.length : Int) ≤ start
  | start, w :: ws =>
    w.start = start ∧ 0 ≤ w.start ∧ w.start < w.stop ∧
    w.stop ≤ (text.length : Int) ∧ w.stop - w.start ≤ cs ∧
    (w.chunk.length : Int) ≤ cs ∧
    ((w.stop = (text.length : Int) ∧ ws = []) ∨
     (w.stop < (text.length : Int) ∧ w.start + 1 ≤ w.stop - ov ∧
      WindowsInv text cs ov (w.stop - ov) ws))

/-! ## Supporting lemmas -/

theorem pyStrip_length_le (s : List Char) : (pyStrip s).length ≤ s.length := by
  unfold pyStrip
  have h1 := (List.dropWhile_suffix (l := s) isSpaceChar).length_le
  have h2 := (List.dropWhile_suffix
    (l := (s.dropWhile isSpaceChar).reverse) isSpaceChar).length_le
  simp only [List.length_reverse] at *
  omega

theorem sliceIdx_le (len : Nat) (i : Int) : sliceIdx len i ≤ len := by
  unfold sliceIdx; split <;> omega

theorem sliceIdx_of_bounds {len : Nat} {i : Int} (h0 : 0 ≤ i)
    (h1 : i ≤ (len : Int)) : sliceIdx len i = i.toNat := by
  unfold sliceIdx; split <;> omega

theorem pySlice_length_le {s : List Char} {a b : Int} (h0 : 0 ≤ a)
    (hab : a ≤ b) (hbl : b ≤ (s.length : Int)) :
    ((pySlice s a b).length : Int) ≤ b - a := by
  obtain ⟨A, rfl⟩ := Int.eq_ofNat_of_zero_le h0
  obtain ⟨B, rfl⟩ := Int.eq_ofNat_of_zero_le (le_trans h0 hab)
  unfold pySlice sliceIdx
  simp only [List.length_drop, List.length_take]
  rw [if_neg (by omega : ¬ (B : Int) < 0), if_neg (by omega : ¬ (A : Int) < 0)]
  simp only [Int.toNat_natCast]
  omega

theorem rfindIdx_bounds {s sub : List Char} {a b : Int} {i : Nat}
    (hg : rfindIdx s sub a b = some i) :
    sliceIdx s.length a ≤ i ∧ i + sub.length ≤ sliceIdx s.length b := by
  have hm := List.mem_of_mem_getLast? hg
  have hp := (List.mem_filter.mp hm).2
  simp only [Bool.and_eq_true, decide_eq_true_eq] at hp
  exact ⟨hp.1.1, hp.1.2⟩

theorem pyRfind_lt {s sub : List Char} {a b : Int} (hsub : sub ≠ [])
    (hb : 0 ≤ b) : pyRfind s sub a b < b := by
  have hlen : 1 ≤ sub.length := by
    cases sub with
    | nil => exact absurd rfl hsub
    | cons c r => simp
  have hble : (sliceIdx s.length b : Int) ≤ b := by
    unfold sliceIdx; split <;> omega
  cases hg : rfindIdx s sub a b with
  | none => simp only [pyRfind, hg]; omega
  | some i =>
    have hbd := rfindIdx_bounds hg
    simp only [pyRfind, hg]
    omega

theorem pyRfind_ge_of_pos {s sub : List Char} {a b : Int}
    (h : 0 ≤ pyRfind s sub a b) :
    (sliceIdx s.length a : Int) ≤ pyRfind s sub a b := by
  cases hg : rfindIdx s sub a b with
  | none => simp only [pyRfind, hg] at h; omega
  | some i =>
    have hbd := rfindIdx_bounds hg
    simp only [pyRfind, hg]
    omega

theorem chunkEnd_spec (text : List Char) {cs ov start : Int}
    (hov : 0 ≤ ov) (hcs : ov + 1000 < cs)
    (h0 : 0 ≤ start) (h1 : start < (text.length : Int)) :
    start < chunkEnd text cs start ∧
    chunkEnd text cs start ≤ (text.length : Int) ∧
    chunkEnd text cs start - start ≤ cs ∧
    (chunkEnd text cs start < (text.length : Int) →
      start + ov + 1 ≤ chunkEnd text cs start) := by
  have hraw : rawEnd text cs start = min (start + cs) (text.length : Int) := rfl
  by_cases he : rawEnd text cs start < (text.length : Int)
  · have he0 : rawEnd text cs start = start + cs := by
      rw [hraw] at he ⊢; omega
    have hss : boundarySearchStart text cs start = start + cs - 1000 := by
      unfold boundarySearchStart; rw [he0]; omega
    by_cases hls : lastSentence text cs start > boundarySearchStart text cs start
    · have hlt : lastSentence text cs start < rawEnd text cs start := by
        have h4 : ∀ sub : List Char, sub ≠ [] →
            pyRfind text sub (boundarySearchStart text cs start)
              (rawEnd text cs start) < rawEnd text cs start := by
          intro sub hsub
          exact pyRfind_lt hsub (by rw [he0]; omega)
        have := h4 ['.'] (by simp)
        have := h4 ['!'] (by simp)
        have := h4 ['?'] (by simp)
        have := h4 ['\n', '\n'] (by simp)
        unfold lastSentence
        omega
      have hEnd : chunkEnd text cs start = lastSentence text cs start + 1 := by
        unfold chunkEnd; rw [if_pos he, if_pos hls]
      rw [hEnd]
      rw [hss] at hls
      rw [he0] at hlt
      constructor
      · omega
      refine ⟨by omega, by omega, fun _ => by omega⟩
    · have hEnd : chunkEnd text cs start = rawEnd text cs start := by
        unfold chunkEnd; rw [if_pos he, if_neg hls]
      rw [hEnd, he0]
      refine ⟨by omega, by omega, by omega, fun _ => by omega⟩
  · have hEnd : chunkEnd text cs start = rawEnd text cs start := by
      unfold chunkEnd; rw [if_neg he]
    rw [hraw] at he
    rw [hEnd, hraw]
    refine ⟨by omega, by omega, by omega, fun hc => by omega⟩

theorem chunkStep_spec (text : List Char) {cs ov start : Int}
    (hov : 0 ≤ ov) (hcs : ov + 1000 < cs)
    (h0 : 0 ≤ start) (h1 : start < (text.length : Int)) :
    (chunkStep text cs ov start).1.start = start ∧
    start < (chunkStep text cs ov start).1.stop ∧
    (chunkStep text cs ov start).1.stop ≤ (text.length : Int) ∧
    (chunkStep text cs ov start).1.stop - start ≤ cs ∧
    ((chunkStep text cs ov start).1.chunk.length : Int) ≤ cs ∧
    (((chunkStep text cs ov start).1.stop = (text.length : Int) ∧
      (chunkStep text cs ov start).2 = (text.length : Int)) ∨
     ((chunkStep text cs ov start).1.stop < (text.length : Int) ∧
      (chunkStep text cs ov start).2 = (chunkStep text cs ov start).1.stop - ov ∧
      start + 1 ≤ (chunkStep text cs ov start).2)) := by
  obtain ⟨hA, hB, hC, hD⟩ := chunkEnd_spec text hov hcs h0 h1
  have hchunk : ((pyStrip (pySlice text start (chunkEnd text cs start))).length : Int) ≤ cs := by
    have h5 := pyStrip_length_le (pySlice text start (chunkEnd text cs start))
    have h6 := pySlice_length_le (s := text) h0 (le_of_lt hA) hB
    omega
  unfold chunkStep
  by_cases he : chunkEnd text cs start < (text.length : Int)
  · rw [if_pos he]
    dsimp only
    refine ⟨rfl, hA, hB, by omega, hchunk, Or.inr ⟨he, rfl, ?_⟩⟩
    have := hD he
    omega
  · rw [if_neg he]
    dsimp only
    exact ⟨rfl, hA, hB, by omega, hchunk, Or.inl ⟨by omega, by omega⟩⟩

theorem chunkLoop_spec (text : List Char) {cs ov : Int}
    (hov : 0 ≤ ov) (hcs : ov + 1000 < cs) :
    ∀ (fuel : Nat) (start : Int), 0 ≤ start →
      ((text.length : Int) - start).toNat < fuel →
      ∃ ws, chunkLoop text cs ov fuel start = some ws ∧
        WindowsInv text cs ov start ws := by
  intro fuel
  induction fuel with
  | zero => intro start _ hf; omega
  | succ f ih =>
    intro start h0 hf
    by_cases hst : start < (text.length : Int)
    · obtain ⟨hA, hB, hC, hDcs, hE, hF⟩ := chunkStep_spec text hov hcs h0 hst
      rcases hF with ⟨hstop, hs2⟩ | ⟨hstop, hs2, hs3⟩
      · have hnext : chunkLoop text cs ov f ((chunkStep text cs ov start).2)
            = some [] := by
          cases f with
          | zero => omega
          | succ g =>
            rw [hs2]; unfold chunkLoop; rw [if_neg (by omega)]
        refine ⟨[(chunkStep text cs ov start).1], ?_, ?_⟩
        · unfold chunkLoop
          rw [if_pos hst]
          dsimp only
          rw [hnext]
        · simp only [WindowsInv]
          exact ⟨hA, by omega, by omega, hC, by omega, hE,
            Or.inl ⟨hstop, trivial⟩⟩
      · obtain ⟨ws', hws', hinv'⟩ := ih ((chunkStep text cs ov start).2)
          (by omega) (by omega)
        refine ⟨(chunkStep text cs ov start).1 :: ws', ?_, ?_⟩
        · unfold chunkLoop
          rw [if_pos hst]
          dsimp only
          rw [hws']
        · simp only [WindowsInv]
          refine ⟨hA, by omega, by omega, hC, by omega, hE,
            Or.inr ⟨hstop, by omega, ?_⟩⟩
          rw [hs2] at hinv'
          have : (chunkStep text cs ov start).1.stop - ov
              = (chunkStep text cs ov start).1.stop - ov := rfl
          exact hinv'
    · refine ⟨[], ?_, ?_⟩
      · unfold chunkLoop; rw [if_neg hst]
      · simp only [WindowsInv]; omega

theorem windowsInv_mem {text : List Char} {cs ov : Int} :
    ∀ {start : Int} {ws : List Window}, WindowsInv text cs ov start ws →
    ∀ w ∈ ws, 0 ≤ w.start ∧ w.start < w.stop ∧
      w.stop ≤ (text.length : Int) ∧ w.stop - w.start ≤ cs ∧
      (w.chunk.length : Int) ≤ cs := by
  intro start ws
  induction ws generalizing start with
  | nil => intro _ w hw; cases hw
  | cons a l ih =>
    intro hinv w hw
    simp only [WindowsInv] at hinv
    obtain ⟨h1, h2, h3, h4, h5, h6, hd⟩ := hinv
    rcases List.mem_cons.mp hw with rfl | hw'
    · exact ⟨h2, h3, h4, h5, h6⟩
    · rcases hd with ⟨_, rfl⟩ | ⟨_, _, hinv'⟩
      · cases hw'
      · exact ih hinv' w hw'

theorem windowsInv_chain {text : List Char} {cs ov : Int} :
    ∀ {start : Int} {ws : List Window}, WindowsInv text cs ov start ws →
    List.Chain' (fun a b => b.start = a.stop - ov ∧ a.start < b.start) ws := by
  intro start ws
  induction ws generalizing start with
  | nil => intro _; exact List.chain'_nil
  | cons a l ih =>
    intro hinv
    simp only [WindowsInv] at hinv
    obtain ⟨h1, h2, h3, h4, h5, h6, hd⟩ := hinv
    cases l with
    | nil => simp
    | cons b m =>
      rcases hd with ⟨_, hcontra⟩ | ⟨hlt, hle, hinv'⟩
      · exact absurd hcontra (by simp)
      · have hbstart : b.start = a.stop - ov := by
          simp only [WindowsInv] at hinv'
          exact hinv'.1
        rw [List.chain'_cons]
        exact ⟨⟨hbstart, by omega⟩, ih hinv'⟩

theorem chunkWindows_spec (text : List Char) {cs ov : Int}
    (hov : 0 ≤ ov) (hcs : ov + 1000 < cs) :
    ∃ ws, chunkWindows text cs ov = some ws ∧ WindowsInv text cs ov 0 ws := by
  exact chunkLoop_spec text hov hcs (text.length + 1) 0 le_rfl (by omega)

theorem chunkWindows_isSome (text : List Char) {cs ov : Int}
    (hov : 0 ≤ ov) (hcs : ov + 1000 < cs) :
    (chunkWindows text cs ov).isSome := by
  obtain ⟨ws, hws, -⟩ := chunkWindows_spec text hov hcs
  simp [hws]

theorem chunkLoop_repeat_none :
    ∀ fuel, chunkLoop (List.replicate 10 'a') 5 5 fuel 0 = none := by
  intro fuel
  induction fuel with
  | zero => rfl
  | succ f ih =>
    have hstep : chunkStep (List.replicate 10 'a') 5 5 0
        = (⟨0, 5, List.replicate 5 'a'⟩, 0) := by decide
    unfold chunkLoop
    rw [if_pos (by decide : (0 : Int) < ((List.replicate 10 'a').length : Int))]
    dsimp only
    rw [hstep]
    dsimp only
    rw [ih]

/-! ## Claim theorems -/

/-- C7 (as stated, counterexample): `chunk_text` is not total for every
positive `chunk_size` and non-negative `overlap`.  On the ten-character
text `"aaaaaaaaaa"` with `chunk_size = 5` and `overlap = 5` the loop body
maps `start = 0` back to `start = 0` (`end = 5`, no sentence boundary, next
start `end - overlap = 0`), so the `while` loop never terminates: every
fuel bound is exhausted and the fuelled embedding returns `none`. -/
theorem chunk_text_diverges_cx :
    chunkTextDiverges (List.replicate 10 'a') 5 5 ∧
    chunk_text (List.replicate 10 'a') 5 5 = none ∧
    (0 : Int) < 5 ∧ (0 : Int) ≤ 5 := by
  refine ⟨chunkLoop_repeat_none, ?_, by decide, by decide⟩
  unfold chunk_text
  rw [if_neg (by decide)]
  unfold chunkWindows
  rw [chunkLoop_repeat_none ((List.replicate 10 'a').length + 1)]
  rfl

/-- C7 (amended): `chunk_text` terminates for every text whenever
`0 ≤ overlap` and `overlap + 1000 < chunk_size` — in particular at both of
the repository's call sites, `(50000, 5000)` and `(40000, 3000)`.  (The
`+ 1000` accounts for the sentence-boundary search, which may pull a
chunk's end back up to just past `end - 1000`.) -/
theorem chunk_text_total_when_overlap_small (text : List Char) {cs ov : Int}
    (hov : 0 ≤ ov) (hcs : ov + 1000 < cs) :
    (chunk_text text cs ov).isSome := by
  unfold chunk_text
  by_cases h : (text.length : Int) ≤ cs
  · rw [if_pos h]; rfl
  · rw [if_neg h]
    obtain ⟨ws, hws, -⟩ := chunkWindows_spec text hov hcs
    rw [hws]
    rfl

/-- Witness for C7's amended theorem at `chunk_size = 40000`,
`overlap = 3000` (the summarizer's call site) on a concrete text. -/
theorem chunk_text_total_when_overlap_small_witness :
    (0 : Int) ≤ 3000 ∧ (3000 : Int) + 1000 < 40000 ∧
    (chunk_text "hello world".data 40000 3000).isSome :=
  ⟨by decide, by decide,
   chunk_text_total_when_overlap_small "hello world".data (by decide) (by decide)⟩

/-- C6 (as stated, counterexample): the emitted chunks do not always start
`overlap` characters before the previous emitted chunk's end, even away
from the last chunk.  On `gapText` (`len = 33 > chunk_size = 6`,
`overlap = 1`) three whitespace-only windows are dropped, so the emitted
chunk `"bcdef"` — which is third of five, not the last — starts at offset
21 while the previous emitted chunk (`"."`) ends at 7: the required start
`7 - 1 = 6` is strictly less than 21. -/
theorem chunk_text_gap_cx :
    (6 : Int) < (gapText.length : Int) ∧
    chunkWindows gapText 6 1 = some
      [⟨0, 2, "a.".data⟩, ⟨1, 7, ".".data⟩, ⟨6, 12, []⟩, ⟨11, 17, []⟩,
       ⟨16, 22, []⟩, ⟨21, 27, "bcdef".data⟩, ⟨26, 32, "fghijk".data⟩,
       ⟨31, 33, "kl".data⟩] ∧
    chunk_text gapText 6 1 = some
      ["a.".data, ".".data, "bcdef".data, "fghijk".data, "kl".data] ∧
    emittedWindows
      [⟨0, 2, "a.".data⟩, ⟨1, 7, ".".data⟩, ⟨6, 12, []⟩, ⟨11, 17, []⟩,
       ⟨16, 22, []⟩, ⟨21, 27, "bcdef".data⟩, ⟨26, 32, "fghijk".data⟩,
       ⟨31, 33, "kl".data⟩] =
      [⟨0, 2, "a.".data⟩, ⟨1, 7, ".".data⟩, ⟨21, 27, "bcdef".data⟩,
       ⟨26, 32, "fghijk".data⟩, ⟨31, 33, "kl".data⟩] ∧
    ((7 : Int) - 1 < 21) := by
  refine ⟨by decide, by decide, ?_, by decide, by decide⟩
  decide

/-- C6 (amended): for every text longer than `chunk_size`, when
`0 ≤ overlap` and `overlap + 1000 < chunk_size` (so the loop terminates),
the loop's candidate windows have strictly increasing start offsets, each
subsequent window starts exactly `overlap` characters before the previous
window's (adjusted) end, every window spans at most `chunk_size`
characters, and every emitted chunk has length at most `chunk_size`; the
emitted chunks are the non-whitespace windows' stripped texts in window
order (so consecutive *emitted* chunks overlap by `overlap` only when no
whitespace-only window between them was dropped). -/
theorem chunk_text_window_structure (text : List Char) {cs ov : Int}
    (hov : 0 ≤ ov) (hcs : ov + 1000 < cs) (hlen : cs < (text.length : Int)) :
    ∃ ws, chunkWindows text cs ov = some ws ∧
      chunk_text text cs ov = some (emittedChunks ws) ∧
      (∀ w ∈ ws, 0 ≤ w.start ∧ w.start < w.stop ∧
        w.stop ≤ (text.length : Int) ∧ w.stop - w.start ≤ cs ∧
        (w.chunk.length : Int) ≤ cs) ∧
      (∀ c ∈ emittedChunks ws, (c.length : Int) ≤ cs) ∧
      List.Chain' (fun a b => b.start = a.stop - ov ∧ a.start < b.start) ws := by
  obtain ⟨ws, hws, hinv⟩ := chunkWindows_spec text hov hcs
  refine ⟨ws, hws, ?_, windowsInv_mem hinv, ?_, windowsInv_chain hinv⟩
  · unfold chunk_text
    rw [if_neg (by omega), hws]
    rfl
  · intro c hc
    unfold emittedChunks at hc
    obtain ⟨hc', -⟩ := List.mem_filter.mp hc
    obtain ⟨w, hw, rfl⟩ := List.mem_map.mp hc'
    exact (windowsInv_mem hinv w hw).2.2.2.2

/-- Witness for C6's amended theorem on `gapText` with `chunk_size = 1001`
and `overlap = 0`: hypotheses hold and the structure theorem applies. -/
theorem chunk_text_window_structure_witness :
    (0 : Int) ≤ 0 ∧ (0 : Int) + 1000 < 1001 ∧
    (1001 : Int) < ((List.replicate 1002 'b').length : Int) ∧
    (∃ ws, chunkWindows (List.replicate 1002 'b') 1001 0 = some ws ∧
      chunk_text (List.replicate 1002 'b') 1001 0 = some (emittedChunks ws) ∧
      (∀ w ∈ ws, 0 ≤ w.start ∧ w.start < w.stop ∧
        w.stop ≤ ((List.replicate 1002 'b').length : Int) ∧
        w.stop - w.start ≤ 1001 ∧ (w.chunk.length : Int) ≤ 1001) ∧
      (∀ c ∈ emittedChunks ws, (c.length : Int) ≤ 1001) ∧
      List.Chain' (fun a b => b.start = a.stop - 0 ∧ a.start < b.start) ws) :=
  ⟨by decide, by decide, by rw [List.length_replicate]; norm_num,
   chunk_text_window_structure (List.replicate 1002 'b') (by decide) (by decide)
     (by rw [List.length_replicate]; norm_num)⟩

theorem sumLen_cons (c : List Char) (l : List (List Char)) :
    sumLen (c :: l) = c.length + sumLen l := by
  simp [sumLen]

theorem sumLen_reverse (l : List (List Char)) : sumLen l.reverse = sumLen l := by
  simp [sumLen]
  rw [List.sum_reverse]

theorem joinSep_nil_length (l : List (List Char)) :
    (joinSep [] l).length = sumLen l := by
  induction l with
  | nil => simp [joinSep, sumLen]
  | cons x xs ih =>
    cases xs with
    | nil => simp [joinSep, sumLen]
    | cons y ys =>
      simp only [joinSep, List.length_append, List.length_nil] at *
      rw [sumLen_cons]
      omega

theorem trimToPh_length_le {width : Nat} {ph : List Char}
    (hph : (pyLstrip ph).length ≤ width) :
    ∀ l, (trimToPh width ph l).length ≤ width := by
  intro l
  induction l with
  | nil => simpa [trimToPh] using hph
  | cons c rs ih =>
    unfold trimToPh
    split
    · next h =>
      rw [List.length_append, joinSep_nil_length, sumLen_reverse]
      omega
    · exact ih

theorem wrapOne_length_le {width : Nat} {ph : List Char}
    (hph : (pyLstrip ph).length ≤ width) (chunks : List (List Char)) :
    (wrapOne width ph chunks).length ≤ width := by
  unfold wrapOne
  dsimp only
  split
  · simp
  · split
    · next h => rw [joinSep_nil_length]; exact h.2
    · exact trimToPh_length_le hph _

theorem pyShorten_length_le {width : Nat} {ph : List Char}
    (hph : (pyLstrip ph).length ≤ width) (text : List Char) :
    (pyShorten text width ph).length ≤ width := by
  unfold pyShorten
  exact wrapOne_length_le hph _

/-- C1 (amended): only the retrieval context built by `fetch_repo_chunks`
is budget-bounded: whenever it returns a context string, that string has at
most 4000 characters (`textwrap.shorten(joined, width=4000, ...)`), and an
empty retrieval result yields no context rather than an error.  (The full
prompt context is *not* so bounded — see the counterexample: tool context
and loaded-document content are concatenated without truncation.) -/
theorem retrieval_context_budget :
    (∀ results ctx, (fetch_repo_chunks results).1 = some ctx →
      ctx.length ≤ 4000) ∧
    fetch_repo_chunks [] = (none, []) := by
  constructor
  · intro results ctx h
    unfold fetch_repo_chunks at h
    split at h
    · simp at h
    · split at h
      · simp at h
      · simp only [Option.some.injEq] at h
        subst h
        exact pyShorten_length_le (by decide) _
  · rfl

/-- Witness for C1's amended theorem: a one-passage retrieval result
produces a context, and the theorem bounds it by 4000 characters. -/
theorem retrieval_context_budget_witness :
    ∃ ctx, (fetch_repo_chunks
      [{ content := "hello".data, source? := some "doc.txt".data }]).1
        = some ctx ∧ ctx.length ≤ 4000 := by
  have hs : (fetch_repo_chunks
      [{ content := "hello".data, source? := some "doc.txt".data }]).1.isSome := by
    decide
  obtain ⟨ctx, hctx⟩ := Option.isSome_iff_exists.mp hs
  exact ⟨ctx, hctx, retrieval_context_budget.1 _ ctx hctx⟩

/-- C1 (as stated, counterexample): the context string handed to the LLM
prompt is not bounded by 4000 characters for every input combination.  With
RAG disabled, no tool context, and a pre-loaded document of 4001 characters
(`loaded_context`, the "Load Source" path of `routes.py`), the system
message is the loaded text itself, of length 4001 > 4000.  (All-empty
inputs do yield no context, as the claim's last part says.) -/
theorem assembled_context_exceeds_budget_cx :
    combinedSystemContext false false (List.replicate 4001 'a') false [] []
      = some (List.replicate 4001 'a') ∧
    4000 < (List.replicate 4001 'a').length ∧
    combinedSystemContext true false [] false [] [] = none := by
  refine ⟨rfl, ?_, rfl⟩
  rw [List.length_replicate]
  norm_num

theorem analyzeChunks_indices (oracle : Oracle) (question : List Char)
    (total : Nat) :
    ∀ (i : Nat) (chunks : List (List Char)),
      List.Chain' (fun a b => a.chunk_index < b.chunk_index)
        (analyzeChunks oracle question total i chunks).2 ∧
      (∀ s ∈ (analyzeChunks oracle question total i chunks).2,
        i ≤ s.chunk_index) := by
  intro i chunks
  induction chunks generalizing i with
  | nil => simp [analyzeChunks]
  | cons c rest ih =>
    unfold analyzeChunks
    split
    · simp
    · cases oracle (relevancePrompt question i total c) with
      | error e =>
        dsimp only
        obtain ⟨hch, hge⟩ := ih (i + 1)
        exact ⟨hch, fun s hs => by have := hge s hs; omega⟩
      | ok resp =>
        dsimp only
        obtain ⟨hch, hge⟩ := ih (i + 1)
        split
        · next hscore =>
          constructor
          · cases h2 : (analyzeChunks oracle question total (i + 1) rest).2 with
            | nil => simp
            | cons b m =>
              rw [List.chain'_cons]
              rw [h2] at hch hge
              exact ⟨by have := hge b (by simp); simpa using by omega,
                hch⟩
          · intro s hs
            rcases List.mem_cons.mp hs with rfl | hs'
            · simp
            · have := hge s hs'; omega
        · exact ⟨hch, fun s hs => by have := hge s hs; omega⟩

/-- C2 (code-bug evidence): when the document yields more than ten chunks,
the scoring loop's guard `if len(chunks) > 10 and i > 0: break` stops after
chunk 0, so exactly one chunk is scored — while the returned
`chunks_analyzed` field is `min(len(chunks), 10) = 10`.  Evaluated here on
eleven one-character chunks with a scorer that always answers
`"Relevance Score: 7/10"`: one `(index, score)` pair is recorded, yet the
reported analysed count would be 10. -/
theorem chunk_cap_scores_only_first :
    ((analyzeChunks
        (fun _ => Except.ok "Relevance Score: 7/10\nSummary: fine".data)
        "q".data 11 0 (List.replicate 11 ['a'])).1.length = 1) ∧
    ((analyzeChunks
        (fun _ => Except.ok "Relevance Score: 7/10\nSummary: fine".data)
        "q".data 11 0 (List.replicate 11 ['a'])).1 = [(0, 7)]) ∧
    min (List.replicate 11 (['a'] : List Char)).length 10 = 10 ∧
    1 < 10 := by
  refine ⟨?_, ?_, by decide, by decide⟩ <;> decide

/-- C3 (as stated, counterexample): the synthesis selection
`relevant_summaries[:5]` is the first five passers in chunk order, not the
five with the highest scores.  With six summaries of scores
6, 6, 6, 6, 6, 10 (all past the threshold), the selected five all score
below 10 while the score-10 summary — the highest — is left out. -/
theorem synthesis_take_not_top_cx :
    (([⟨0, 6, [], []⟩, ⟨1, 6, [], []⟩, ⟨2, 6, [], []⟩, ⟨3, 6, [], []⟩,
       ⟨4, 6, [], []⟩, ⟨5, 10, [], []⟩] : List RelSummary).take 5).all
      (fun s => decide (s.relevance_score < 10)) = true ∧
    ([⟨0, 6, [], []⟩, ⟨1, 6, [], []⟩, ⟨2, 6, [], []⟩, ⟨3, 6, [], []⟩,
      ⟨4, 6, [], []⟩, ⟨5, 10, [], []⟩] : List RelSummary).all
      (fun s => decide (6 ≤ s.relevance_score)) = true ∧
    ([⟨0, 6, [], []⟩, ⟨1, 6, [], []⟩, ⟨2, 6, [], []⟩, ⟨3, 6, [], []⟩,
      ⟨4, 6, [], []⟩, ⟨5, 10, [], []⟩] : List RelSummary).any
      (fun s => decide (s.relevance_score = 10)) = true := by
  decide

/-- C3 (amended): when at least one chunk passed the threshold, the final
prompt is built from the overview plus the summaries of the *first* at most
five passers in original chunk order (`relevant_summaries[:5]`), whose
chunk indices are strictly increasing — not the five highest-scoring. -/
theorem synthesis_uses_first_five (path content question : List Char)
    (oracle : Oracle) (ov fr : List Char)
    (h1 : oracle (overviewPrompt path (content.take 10000) question)
      = .ok ov)
    (h2 : (relevantSummariesOf oracle question content).isEmpty = false)
    (h3 : oracle (finalPrompt path question ov (sectionsAnalysis
      ((relevantSummariesOf oracle question content).take 5))) = .ok fr) :
    (summarize_large_document path content question oracle).response
      = some fr ∧
    List.Chain' (fun a b => a.chunk_index < b.chunk_index)
      (relevantSummariesOf oracle question content) := by
  constructor
  · unfold summarize_large_document
    rw [h1]
    dsimp only
    rw [if_neg (by rw [h2]; simp), h3]
  · exact (analyzeChunks_indices oracle question
      (summarizerChunks content).length 0 (summarizerChunks content)).1

/-- Witness for C3's amended theorem: a short document (one chunk), a
scorer that always answers score 8; the response is the synthesis oracle's
answer and the summary list is chunk-ordered. -/
theorem synthesis_uses_first_five_witness :
    (summarize_large_document "d.txt".data "some document text".data "q".data
      (fun _ => Except.ok "Relevance Score: 8/10\nSummary: good".data)).response
      = some "Relevance Score: 8/10\nSummary: good".data ∧
    List.Chain' (fun a b => a.chunk_index < b.chunk_index)
      (relevantSummariesOf
        (fun _ => Except.ok "Relevance Score: 8/10\nSummary: good".data)
        "q".data "some document text".data) :=
  synthesis_uses_first_five "d.txt".data "some document text".data "q".data
    (fun _ => Except.ok "Relevance Score: 8/10\nSummary: good".data)
    "Relevance Score: 8/10\nSummary: good".data
    "Relevance Score: 8/10\nSummary: good".data
    rfl (by decide) rfl

/-- C10: `summarize_large_document` is total at its interface: it returns a
result for every input and oracle behaviour; the result always carries a
Boolean `success` (a non-optional field of `SummaryResult`); and in the
success and failure branches alike, `document_size` is present and equals
`len(document_content)`.  When `success` is false, an error message is
present. -/
theorem summarize_total_shape (path content question : List Char)
    (oracle : Oracle) :
    (summarize_large_document path content question oracle).document_size
      = content.length ∧
    ((summarize_large_document path content question oracle).success = true ∨
     ((summarize_large_document path content question oracle).success = false ∧
      (summarize_large_document path content question oracle).error.isSome)) := by
  unfold summarize_large_document
  cases oracle (overviewPrompt path (content.take 10000) question) with
  | error e => exact ⟨rfl, Or.inr ⟨rfl, rfl⟩⟩
  | ok ov =>
    dsimp only
    split
    · exact ⟨rfl, Or.inl rfl⟩
    · cases oracle (finalPrompt path question ov (sectionsAnalysis
          ((relevantSummariesOf oracle question content).take 5))) with
      | error e => exact ⟨rfl, Or.inr ⟨rfl, rfl⟩⟩
      | ok fr => exact ⟨rfl, Or.inl rfl⟩

theorem containsSub_of_infix {s sub : List Char} (h : sub <:+: s) :
    containsSub s sub = true := by
  obtain ⟨t, u, heq⟩ := h
  subst heq
  have hm : matchAt (t ++ sub ++ u) sub t.length = true := by
    unfold matchAt
    rw [List.append_assoc, List.drop_left, List.take_left]
    simp
  have hmem : t.length ∈ (List.range ((t ++ sub ++ u).length + 1)).filter
      (fun i => matchAt (t ++ sub ++ u) sub i) := by
    rw [List.mem_filter]
    refine ⟨List.mem_range.mpr ?_, hm⟩
    simp only [List.length_append]
    omega
  unfold containsSub findFirst
  cases hf : (List.range ((t ++ sub ++ u).length + 1)).filter
      (fun i => matchAt (t ++ sub ++ u) sub i) with
  | nil => rw [hf] at hmem; cases hmem
  | cons a l => simp

theorem mem_infix_joinSep {x : List Char} (sep : List Char) :
    ∀ {l : List (List Char)}, x ∈ l → x <:+: joinSep sep l := by
  intro l hx
  induction l with
  | nil => cases hx
  | cons a m ih =>
    cases m with
    | nil =>
      rcases List.mem_singleton.mp hx with rfl
      exact List.infix_rfl
    | cons b k =>
      rcases List.mem_cons.mp hx with rfl | hx'
      · exact ((List.prefix_append x sep).trans
          (List.prefix_append (x ++ sep) (joinSep sep (b :: k)))).isInfix
      · exact (ih hx').trans (List.suffix_append (a ++ sep) _).isInfix

theorem summary_line_in_events_response
    (unesc : List Char → List Char) (zoom : List Char → Option (List Char))
    (dt : List Char → List Char → Option (List Char × List Char))
    (data : CalendarData) (endpoint : List Char) (e : CalEvent)
    (he : e ∈ data.events) :
    containsSub (formatEventsResponse unesc zoom dt data endpoint)
      ("**".data ++ e.summary?.getD "Untitled Event".data ++ "**".data)
      = true := by
  have hne : data.events.isEmpty = false := by
    cases hev : data.events with
    | nil => rw [hev] at he; cases he
    | cons a l => rfl
  unfold formatEventsResponse
  rw [if_neg (by rw [hne]; simp)]
  apply containsSub_of_infix
  apply mem_infix_joinSep
  apply List.mem_cons_of_mem
  apply List.mem_cons_of_mem
  apply List.mem_flatten.mpr
  refine ⟨eventLines unesc zoom dt
    (!containsSub endpoint "today".data && !containsSub endpoint "tomorrow".data)
    e, List.mem_map_of_mem _ he, ?_⟩
  unfold eventLines
  apply List.mem_append_left
  apply List.mem_append_left
  apply List.mem_append_left
  apply List.mem_append_left
  apply List.mem_append_left
  exact List.mem_singleton_self _

/-- C5 (as stated, counterexample): the "for every query containing ..."
parts of the claim fail because earlier rules win.  The query
`"when is the next 2 weeks party"` contains `"next 2 weeks"` yet resolves
to 30 days via rule 1, not 14 days via rule 2; and
`"next month and next week"` contains `"next week"` without `"weeks"` yet
resolves to 30 days via rule 4, not 14 days via rule 6. -/
theorem calendar_rule_order_cx :
    containsSub (asciiLower "when is the next 2 weeks party".data)
      "next 2 weeks".data = true ∧
    determineEndpoint "when is the next 2 weeks party".data
      = "/calendar/events/next/30".data ∧
    containsSub (asciiLower "next month and next week".data)
      "next week".data = true ∧
    containsSub (asciiLower "next month and next week".data)
      "weeks".data = false ∧
    determineEndpoint "next month and next week".data
      = "/calendar/events/next/30".data := by
  refine ⟨by decide, by decide, by decide, by decide, by decide⟩

/-- C5 (amended): the nine rules are evaluated on the lower-cased query in
the fixed order with first match winning.  In particular: a query matching
the rule-1 pattern resolves to 30 days; a query *not* matching rule 1 whose
leftmost `next N weeks` digit match captures `2` resolves to 14 days via
rule 2; and a query matching none of rules 1-5 that contains `"next week"`
but not `"weeks"` resolves to 14 days via rule 6. -/
theorem calendar_rule_order (q : List Char) :
    (matchNextEvent (asciiLower q) = true →
      determineEndpoint q = "/calendar/events/next/30".data) ∧
    (matchNextEvent (asciiLower q) = false →
      searchPos (nextNumUnitAt "week".data) (asciiLower q) = some "2".data →
      determineEndpoint q = "/calendar/events/next/14".data) ∧
    (matchNextEvent (asciiLower q) = false →
      searchPos (nextNumUnitAt "week".data) (asciiLower q) = none →
      searchPos (nextWordUnitAt "week".data) (asciiLower q) = none →
      searchPos (nextNumUnitAt "day".data) (asciiLower q) = none →
      searchPos (nextWordUnitAt "day".data) (asciiLower q) = none →
      containsSub (asciiLower q) "next month".data = false →
      containsSub (asciiLower q) "this week".data = false →
      containsSub (asciiLower q) "next week".data = true →
      containsSub (asciiLower q) "weeks".data = false →
      determineEndpoint q = "/calendar/events/next/14".data) := by
  refine ⟨?_, ?_, ?_⟩
  · intro h1
    simp [determineEndpoint, h1]
  · intro h1 h2
    have : determineEndpoint q = "/calendar/events/next/".data
        ++ natChars ((digitsVal "2".data).getD 0 * 7) := by
      simp [determineEndpoint, h1, h2]
    rw [this]
    decide
  · intro h1 h2 h3 h4 h5 h6 h7 h8 h9
    simp [determineEndpoint, h1, h2, h3, h4, h5, h6, h7, h8, h9]

/-- Witness for C5's amended theorem on three concrete queries, one per
conjunct. -/
theorem calendar_rule_order_witness :
    determineEndpoint "when is my next review".data
      = "/calendar/events/next/30".data ∧
    determineEndpoint "plan for next 2 weeks".data
      = "/calendar/events/next/14".data ∧
    determineEndpoint "what about next week".data
      = "/calendar/events/next/14".data :=
  ⟨(calendar_rule_order "when is my next review".data).1 (by decide),
   (calendar_rule_order "plan for next 2 weeks".data).2.1 (by decide)
     (by decide),
   (calendar_rule_order "what about next week".data).2.2 (by decide)
     (by decide) (by decide) (by decide) (by decide) (by decide) (by decide)
     (by decide) (by decide)⟩

/-- C4 (as stated, counterexample): for a `"when is the next X"` query the
tool fetches the next 30 days, but its formatted output lists *all* fetched
events — not only the first match on the extracted term.  Here the query
asks for the next dentist visit, the API returns a Dentist event and a
Haircut event, and the formatted response contains both, under a
"2 event(s) in the next month" header.  (`_format_next_event_response`,
which would filter by the term and keep the first match, is never called by
`execute`; its comments say the LLM is expected to filter.) -/
theorem next_event_query_lists_all_cx :
    (calendarExecute true true 10 id (fun _ => none) (fun _ _ => none)
      "when is the next dentist visit".data
      (.ok { events := [{ summary? := some "Dentist".data },
                        { summary? := some "Haircut".data }] })).endpoint
      = some "/calendar/events/next/30".data ∧
    containsSub ((calendarExecute true true 10 id (fun _ => none)
        (fun _ _ => none) "when is the next dentist visit".data
        (.ok { events := [{ summary? := some "Dentist".data },
                          { summary? := some "Haircut".data }] })).formatted_response.getD [])
      "**Haircut**".data = true ∧
    containsSub ((calendarExecute true true 10 id (fun _ => none)
        (fun _ _ => none) "when is the next dentist visit".data
        (.ok { events := [{ summary? := some "Dentist".data },
                          { summary? := some "Haircut".data }] })).formatted_response.getD [])
      "**Dentist**".data = true ∧
    containsSub ((calendarExecute true true 10 id (fun _ => none)
        (fun _ _ => none) "when is the next dentist visit".data
        (.ok { events := [{ summary? := some "Dentist".data },
                          { summary? := some "Haircut".data }] })).formatted_response.getD [])
      "2 event(s) in the next month".data = true := by
  refine ⟨by decide, by decide, by decide, by decide⟩

/-- C4 (amended): for every query matching `when is (the|my) next`, the
enabled and configured calendar tool calls `/calendar/events/next/30` (30
days), and its formatted output lists every fetched event (each event's
`**summary**` line occurs in it); no term filtering or first-match
selection happens in the provider. -/
theorem next_event_query_lists_all (query : List Char) (data : CalendarData)
    (timeout : Nat) (unesc : List Char → List Char)
    (zoom : List Char → Option (List Char))
    (dt : List Char → List Char → Option (List Char × List Char))
    (h : matchNextEvent (asciiLower query) = true) :
    calendarExecute true true timeout unesc zoom dt query (.ok data) =
      { success := true,
        formatted_response := some (formatEventsResponse unesc zoom dt data
          "/calendar/events/next/30".data),
        endpoint := some "/calendar/events/next/30".data,
        event_count := some data.events.length } ∧
    (∀ e ∈ data.events,
      containsSub (formatEventsResponse unesc zoom dt data
          "/calendar/events/next/30".data)
        ("**".data ++ e.summary?.getD "Untitled Event".data ++ "**".data)
        = true) := by
  have hend : determineEndpoint query = "/calendar/events/next/30".data := by
    simp [determineEndpoint, h]
  constructor
  · unfold calendarExecute
    rw [hend]
    dsimp only
    rw [if_neg (by decide), if_neg (by decide), if_neg (by decide)]
  · intro e he
    exact summary_line_in_events_response unesc zoom dt data _ e he

/-- Witness for C4's amended theorem: the query `"when is my next haircut"`
with one fetched event. -/
theorem next_event_query_lists_all_witness :
    calendarExecute true true 10 id (fun _ => none) (fun _ _ => none)
      "when is my next haircut".data
      (.ok { events := [{ summary? := some "Team sync".data }] }) =
      { success := true,
        formatted_response := some (formatEventsResponse id (fun _ => none)
          (fun _ _ => none) { events := [{ summary? := some "Team sync".data }] }
          "/calendar/events/next/30".data),
        endpoint := some "/calendar/events/next/30".data,
        event_count := some 1 } ∧
    (∀ e ∈ ({ events := [{ summary? := some "Team sync".data }] }
        : CalendarData).events,
      containsSub (formatEventsResponse id (fun _ => none) (fun _ _ => none)
          { events := [{ summary? := some "Team sync".data }] }
          "/calendar/events/next/30".data)
        ("**".data ++ e.summary?.getD "Untitled Event".data ++ "**".data)
        = true) :=
  next_event_query_lists_all "when is my next haircut".data
    { events := [{ summary? := some "Team sync".data }] } 10 id
    (fun _ => none) (fun _ _ => none) (by decide)

/-- C8: provider execution never raises and never aborts routing.  Each
provider maps every failing call outcome (timeout, connection error, HTTP
error, or any other exception) to a result with `success = false` and a
non-empty error message; and `route_query` collects one result per matched
provider, in order — a provider whose `execute` raises contributes a
captured `success = false` result without preventing the remaining matched
providers from executing. -/
theorem provider_failures_captured :
    (∀ (timeout : Nat) (unesc : List Char → List Char)
        (zoom : List Char → Option (List Char))
        (dt : List Char → List Char → Option (List Char × List Char))
        (query m : List Char) (st : Nat),
      ((calendarExecute true true timeout unesc zoom dt query .timeout).success
          = false ∧
        ((calendarExecute true true timeout unesc zoom dt query
          .timeout).error.getD []).isEmpty = false) ∧
      ((calendarExecute true true timeout unesc zoom dt query
          (.connError m)).success = false ∧
        ((calendarExecute true true timeout unesc zoom dt query
          (.connError m)).error.getD []).isEmpty = false) ∧
      ((calendarExecute true true timeout unesc zoom dt query
          (.httpError st m)).success = false ∧
        ((calendarExecute true true timeout unesc zoom dt query
          (.httpError st m)).error.getD []).isEmpty = false) ∧
      ((calendarExecute true true timeout unesc zoom dt query
          (.otherError m)).success = false ∧
        ((calendarExecute true true timeout unesc zoom dt query
          (.otherError m)).error.getD []).isEmpty = false)) ∧
    (∀ (apiUrl m : List Char) (timeout st : Nat),
      ((weatherExecute true apiUrl timeout .timeout).success = false ∧
        ((weatherExecute true apiUrl timeout .timeout).error.getD []).isEmpty
          = false) ∧
      ((weatherExecute true apiUrl timeout (.connError m)).success = false ∧
        ((weatherExecute true apiUrl timeout
          (.connError m)).error.getD []).isEmpty = false) ∧
      ((weatherExecute true apiUrl timeout (.httpError st m)).success = false ∧
        ((weatherExecute true apiUrl timeout
          (.httpError st m)).error.getD []).isEmpty = false) ∧
      ((weatherExecute true apiUrl timeout (.otherError m)).success = false ∧
        ((weatherExecute true apiUrl timeout
          (.otherError m)).error.getD []).isEmpty = false)) ∧
    (∀ (tools : List RouterTool) (query : List Char),
      (routeQuery tools query).1.length
        = (tools.filter (fun t => t.canHandle query)).length ∧
      List.Forall₂ (fun (t : RouterTool) (r : ToolResult) =>
          match t.behavior query with
          | .returns r0 => r = r0
          | .raises m => r = { success := false, error := some m })
        (tools.filter (fun t => t.canHandle query))
        (routeQuery tools query).1) := by
  refine ⟨?_, ?_, ?_⟩
  · intro timeout unesc zoom dt query m st
    exact ⟨⟨rfl, rfl⟩, ⟨rfl, rfl⟩, ⟨rfl, rfl⟩, ⟨rfl, rfl⟩⟩
  · intro apiUrl m timeout st
    exact ⟨⟨rfl, rfl⟩, ⟨rfl, rfl⟩, ⟨rfl, rfl⟩, ⟨rfl, rfl⟩⟩
  · intro tools query
    unfold routeQuery
    by_cases hm : (tools.filter (fun t => t.canHandle query)).isEmpty
    · rw [if_pos hm]
      have hnil : tools.filter (fun t => t.canHandle query) = [] :=
        List.isEmpty_iff.mp hm
      rw [hnil]
      exact ⟨rfl, List.Forall₂.nil⟩
    · rw [if_neg hm]
      dsimp only
      rw [List.map_map]
      constructor
      · rw [List.length_map]
      · rw [List.forall₂_map_right_iff]
        rw [List.forall₂_same]
        intro t ht
        cases hb : t.behavior query <;> simp [hb]

/-- C9 (as stated, counterexample): a failed `ToolResult` does *not* format
to the empty string.  `BaseTool.format_for_llm` renders it as a bracketed
error marker, which — being non-empty — `route_query` appends to the merged
context, so the provider error is injected as visible text. -/
theorem failed_result_marker_cx :
    baseFormatForLlm "calendar".data []
      { success := false, error := some "boom".data }
      = "[calendar tool error: boom]".data ∧
    ("[calendar tool error: boom]".data).isEmpty = false ∧
    (routeQuery [soloTool "calendar".data []
        { success := false, error := some "boom".data }] "q".data).2
      = "[calendar tool error: boom]".data := by
  refine ⟨by decide, by decide, by decide⟩

/-- C9 (amended): for every failed result, `BaseTool.format_for_llm`
returns the non-empty marker `[<name> tool error: <message>]` (with
`"Unknown error"` when no message is present), and the router injects that
marker into the merged context of any query the tool matched — a provider
error is surfaced as visible bracketed text, not as an absent
contribution. -/
theorem failed_result_marker (name dataStr : List Char) (r : ToolResult)
    (h : r.success = false) :
    baseFormatForLlm name dataStr r
      = "[".data ++ name ++ " tool error: ".data
        ++ r.error.getD "Unknown error".data ++ "]".data ∧
    (baseFormatForLlm name dataStr r).isEmpty = false ∧
    (∀ q : List Char,
      (routeQuery [soloTool name dataStr r] q).2
        = baseFormatForLlm name dataStr r) := by
  have h1 : baseFormatForLlm name dataStr r
      = "[".data ++ name ++ " tool error: ".data
        ++ r.error.getD "Unknown error".data ++ "]".data := by
    unfold baseFormatForLlm
    rw [h]
    rfl
  have h2 : (baseFormatForLlm name dataStr r).isEmpty = false := by
    rw [h1]; rfl
  have h3 : ¬ baseFormatForLlm name dataStr r = [] := by
    intro he
    rw [he] at h2
    exact absurd h2 (by simp)
  refine ⟨h1, h2, ?_⟩
  intro q
  simp [routeQuery, soloTool, h2, h3, joinSep, List.filterMap]

/-- Witness for C9's amended theorem on a failed weather result with no
message. -/
theorem failed_result_marker_witness :
    baseFormatForLlm "weather".data [] { success := false }
      = "[".data ++ "weather".data ++ " tool error: ".data
        ++ ({ success := false } : ToolResult).error.getD "Unknown error".data
        ++ "]".data ∧
    (baseFormatForLlm "weather".data [] { success := false }).isEmpty
      = false ∧
    (∀ q : List Char,
      (routeQuery [soloTool "weather".data [] { success := false }] q).2
        = baseFormatForLlm "weather".data [] { success := false }) :=
  failed_result_marker "weather".data [] { success := false } rfl

end InsightChat
